import Mathlib

/-!
# Verification of the Usage controller and deletion-admission webhook

A shallow embedding of the Usage subsystem of the repository:

* the deletion-admission webhook (`Handle` / `validateNoUsages`,
  from the webhook handler source file), and
* the Usage reconciler state machine (`Reconcile`,
  from `internal/controller/apiextensions/usage/reconciler.go`).

Objects are records of strings and association lists; every call the code
makes to the object store is represented by an outcome recorded in an
`Env` value, and every persisted write or emitted event is recorded in an
effect trace, so that ordering and error-handling properties of a single
reconcile pass can be stated and proved.
-/

namespace Crossplane

/-- A reference to a resource inside a Usage spec: `{apiVersion, kind,
resourceRef: {name}}`.  The Go type nests the name under `ResourceRef`;
the webhook reads the same datum as `Spec.Of.Name`.  We flatten it to a
single `name` field. -/
structure Resource where
  apiVersion : String
  kind : String
  name : String
  deriving DecidableEq, Repr

/-- The spec of a Usage: `of` is required, `by` is optional (a nil
pointer in Go when absent).  `by` is a Lean keyword, hence the field is
spelled `by_`. -/
structure UsageSpec where
  of : Resource
  by_ : Option Resource
  deriving DecidableEq, Repr

/-- An owner reference as stored in object metadata.  `controller = none`
means the reference is non-controlling (the Go helper `meta.AsOwner`
leaves the Controller pointer unset). -/
structure OwnerReference where
  apiVersion : String
  kind : String
  name : String
  uid : String
  controller : Option Bool
  deriving DecidableEq, Repr

/-- A Usage object: the metadata fields the reconciler reads and writes,
plus its spec.  `deleted` models a non-nil deletion timestamp
(`meta.WasDeleted`). -/
structure Usage where
  uid : String
  labels : List (String × String)
  ownerReferences : List OwnerReference
  deleted : Bool
  spec : UsageSpec
  deriving DecidableEq, Repr

/-- An arbitrary (unstructured) object as seen by the webhook and by the
reconciler when it fetches the used or using resource. -/
structure Object where
  apiVersion : String
  kind : String
  name : String
  uid : String
  labels : List (String × String)
  ownerReferences : List OwnerReference
  deriving DecidableEq, Repr

/-- Go map read `labels[k]`: the zero value `""` when the key is absent. -/
def getLabel (ls : List (String × String)) (k : String) : String :=
  match ls.find? (fun p => p.1 == k) with
  | some p => p.2
  | none => ""

/-- Go map write `labels[k] = v` (the body of `meta.AddLabels` for a
single key): overwrite an existing binding, else append. -/
def setLabel (ls : List (String × String)) (k v : String) : List (String × String) :=
  match ls with
  | [] => [(k, v)]
  | p :: rest => if p.1 == k then (k, v) :: rest else p :: setLabel rest k v

/-- `meta.RemoveLabels` for a single key: delete the binding. -/
def removeLabel (ls : List (String × String)) (k : String) : List (String × String) :=
  ls.filter (fun p => p.1 != k)

/-- `resource.Unstructured.OwnedBy(uid)` from crossplane-runtime: true iff
some owner reference carries the given UID. -/
def ownedBy (o : Object) (uid : String) : Bool :=
  o.ownerReferences.any (fun r => r.uid == uid)

/-- `meta.AddOwnerReference` from crossplane-runtime: replace the first
existing reference with the same UID, otherwise append. -/
def addOwnerReference : List OwnerReference → OwnerReference → List OwnerReference
  | [], r => [r]
  | x :: xs, r => if x.uid == r.uid then r :: xs else x :: addOwnerReference xs r

/-- `meta.AsOwner(meta.TypedReferenceTo(using, gvk))`: an owner reference
to the given object with the Controller pointer unset (non-controlling). -/
def asOwner (o : Object) : OwnerReference :=
  { apiVersion := o.apiVersion, kind := o.kind, name := o.name, uid := o.uid,
    controller := none }

/-! ## The deletion-admission webhook -/

/-- `getIndexValueForUsage` from the webhook source: the reverse-index key
of a Usage, `of.apiVersion + "." + of.kind + "." + of.name`. -/
def getIndexValueForUsage (u : Usage) : String :=
  u.spec.of.apiVersion ++ "." ++ u.spec.of.kind ++ "." ++ u.spec.of.name

/-- `getIndexValueForObject` from the webhook source: the reverse-index
key of an arbitrary object. -/
def getIndexValueForObject (u : Object) : String :=
  u.apiVersion ++ "." ++ u.kind ++ "." ++ u.name

/-- Split a character list at its first `'/'`, returning the parts before
and after it; `none` when there is no slash. -/
def splitSlash : List Char → Option (List Char × List Char)
  | [] => none
  | c :: cs =>
    if c = '/' then some ([], cs)
    else
      match splitSlash cs with
      | some (g, v) => some (c :: g, v)
      | none => none

/-- `schema.ParseGroupVersion`: `""` and `"/"` parse to the empty
group/version; no slash means an empty group; exactly one slash splits
group from version; two or more slashes are a parse error (`none`). -/
def parseGroupVersion (s : String) : Option (String × String) :=
  if s = "" ∨ s = "/" then some ("", "")
  else
    match splitSlash s.data with
    | none => some ("", s)
    | some (g, v) => if v.contains '/' then none else some (String.mk g, String.mk v)

/-- `u.GroupVersionKind().String()` of an unstructured object:
`unstructured.GroupVersionKind()` parses `apiVersion` (a parse error
yields the empty `GroupVersionKind{}`, whose kind is empty too), and
`GroupVersionKind.String()` prints `Group + "/" + Version + ", Kind=" +
Kind` with no special case for an empty group — a core-group object
(`apiVersion: v1`) prints as `"/v1, Kind=<kind>"`. -/
def gvkString (o : Object) : String :=
  match parseGroupVersion o.apiVersion with
  | none => "/, Kind="
  | some (g, v) => g ++ "/" ++ v ++ ", Kind=" ++ o.kind

/-- The possible outcomes of the admission handler.  `panicked` models a
Go runtime panic (nil-pointer dereference) inside the handler: no
response value is ever produced. -/
inductive AdmissionResponse where
  | allowed (msg : String)
  | denied (msg : String)
  | errored (code : Nat) (msg : String)
  | panicked
  deriving DecidableEq, Repr

/-- The exact-match test of the webhook's deny loop:
`usage.Spec.Of.APIVersion == u.GetAPIVersion() && ... Kind ... && ... Name ...`. -/
def matchesOf (g : Usage) (u : Object) : Bool :=
  g.spec.of.apiVersion == u.apiVersion && g.spec.of.kind == u.kind &&
    g.spec.of.name == u.name

/-- The body of the `for _, usage := range usageList.Items` loop of
`validateNoUsages`: the first Usage whose `of` exactly matches the object
produces a denial built from `usage.Spec.By.Name`; when `Spec.By` is nil
that expression dereferences a nil pointer, which we record as
`panicked`. -/
def checkUsages (u : Object) : List Usage → AdmissionResponse
  | [] => AdmissionResponse.allowed ""
  | g :: rest =>
    if matchesOf g u then
      match g.spec.by_ with
      | some b =>
        AdmissionResponse.denied
          ("The resource is used by " ++ gvkString u ++ "/" ++ b.name)
      | none => AdmissionResponse.panicked
    else checkUsages u rest

/-- `validateNoUsages`: list the Usages in the reverse index under the
object's key (a store failure yields a 500 `Errored` response), then run
the deny loop over the returned items.  The indexed list returns exactly
the Usages whose index value equals the object's key. -/
def validateNoUsages (store : List Usage) (listFails : Bool) (u : Object) :
    AdmissionResponse :=
  if listFails then AdmissionResponse.errored 500 "list error"
  else
    checkUsages u
      (store.filter (fun g => getIndexValueForUsage g == getIndexValueForObject u))

/-- The admission operations distinguished by `handler.Handle`. -/
inductive Operation where
  | create
  | update
  | connect
  | delete
  | other
  deriving DecidableEq, Repr

/-- `handler.Handle`: non-DELETE operations are rejected with a 400
`Errored` response; DELETE decodes the old object (`none` models a decode
failure) and runs `validateNoUsages`. -/
def Handle (store : List Usage) (listFails : Bool) (op : Operation)
    (decoded : Option Object) : AdmissionResponse :=
  match op with
  | Operation.delete =>
    match decoded with
    | none => AdmissionResponse.errored 400 "unmarshal error"
    | some u => validateNoUsages store listFails u
  | _ => AdmissionResponse.errored 400 "unexpected operation"

/-! ## The Usage reconciler

`Reconcile` embeds `Reconciler.Reconcile` from
`internal/controller/apiextensions/usage/reconciler.go`, starting right
after the Usage itself has been fetched.  The outcome of every external
store call of the pass is fixed by an `Env` value; each persisted write
and each recorded event becomes an `Effect` in the returned trace, in
program order.  A failed write produces its Warning event and an error
return, and no write effect. -/

/-- Error strings, as the constants at the top of `reconciler.go`. -/
def errResolveSelectors : String := "cannot resolve selectors"

/-- `errListUsages` from `reconciler.go`. -/
def errListUsages : String := "cannot list usages"

/-- `errGetUsing` from `reconciler.go`. -/
def errGetUsing : String := "cannot get using"

/-- `errGetUsed` from `reconciler.go`. -/
def errGetUsed : String := "cannot get used"

/-- `errAddOwnerToUsage` from `reconciler.go`. -/
def errAddOwnerToUsage : String := "cannot update usage xpresource with owner ref"

/-- `errAddInUseLabel` from `reconciler.go`. -/
def errAddInUseLabel : String := "cannot add in use use label to the used xpresource"

/-- `errRemoveInUseLabel` from `reconciler.go`. -/
def errRemoveInUseLabel : String := "cannot remove in use label from the used xpresource"

/-- `errAddFinalizer` from `reconciler.go`. -/
def errAddFinalizer : String := "cannot add finalizer"

/-- `errRemoveFinalizer` from `reconciler.go`. -/
def errRemoveFinalizer : String := "cannot remove finalizer"

/-- `errUpdateStatus` from `reconciler.go`. -/
def errUpdateStatus : String := "cannot update status of usage"

/-- `inUseLabelKey` from `reconciler.go`. -/
def inUseLabelKey : String := "crossplane.io/in-use"

/-- `xcrd.LabelKeyNamePrefixForComposed`: the composite-name-prefix label
key written by the composition engine onto composed resources. -/
def LabelKeyNamePrefixForComposed : String := "crossplane.io/composite"

/-- Event types of the framework recorder. -/
inductive EventType where
  | normal
  | warning
  deriving DecidableEq, Repr

/-- One observable effect of a reconcile pass, in program order: a
recorded event, a successful finalizer add/remove on the Usage, a
successful `Update` of the used resource, a successful `Update` of the
Usage object, or the final status subresource write. -/
inductive Effect where
  | event (t : EventType) (reason : String)
  | addFinalizer
  | updateUsed (o : Object)
  | updateUsage (u : Usage)
  | removeFinalizer
  | statusUpdate
  deriving DecidableEq, Repr

/-- Outcome of a store `Get`: success with the fetched object, a
NotFound error, or any other (transient) error. -/
inductive GetOutcome where
  | ok (o : Object)
  | notFound
  | transientErr
  deriving DecidableEq, Repr

/-- Outcome of the indexed `List` of Usages in the deletion path. -/
inductive ListOutcome where
  | ok (items : List Usage)
  | err
  deriving DecidableEq, Repr

/-- The outcomes of every external call a single reconcile pass can make,
fixed up front: whether selector resolution succeeds, the results of the
`Get`s on the using and used resources, the result of the indexed Usage
list, and whether each write succeeds. -/
structure Env where
  resolveOk : Bool
  getUsing : GetOutcome
  getUsed : GetOutcome
  listUsages : ListOutcome
  addFinalizerOk : Bool
  updateUsedOk : Bool
  updateUsageOk : Bool
  removeFinalizerOk : Bool
  statusUpdateOk : Bool
  deriving DecidableEq, Repr

/-- The value a pass returns: the `reconcile.Result` (only its
`RequeueAfter`, in seconds, is ever set), the error (`none` for a nil
error), and the trace of effects of the pass. -/
structure ReconcileOutput where
  requeueAfter : Nat
  error : Option String
  trace : List Effect
  deriving DecidableEq, Repr

/-- The final block of the deletion path: `RemoveFinalizer` on the Usage,
then `return reconcile.Result{}, nil`. -/
def finalize (env : Env) (tr : List Effect) : ReconcileOutput :=
  if env.removeFinalizerOk then
    { requeueAfter := 0, error := none, trace := tr ++ [Effect.removeFinalizer] }
  else
    { requeueAfter := 0, error := some errRemoveFinalizer,
      trace := tr ++ [Effect.event EventType.warning "RemoveFinalizer"] }

/-- The label-cleanup block of the deletion path: fetch the used
resource (NotFound is swallowed by `IgnoreNotFound` and skips the
cleanup), list the Usages under the used resource's reverse-index key,
remove the `in-use` label and persist when fewer than two Usages are
returned, then remove the finalizer. -/
def labelCleanup (env : Env) (tr : List Effect) : ReconcileOutput :=
  match env.getUsed with
  | GetOutcome.transientErr =>
    { requeueAfter := 0, error := some errGetUsed,
      trace := tr ++ [Effect.event EventType.warning "GetUsedResource"] }
  | GetOutcome.notFound => finalize env tr
  | GetOutcome.ok used =>
    match env.listUsages with
    | ListOutcome.err =>
      { requeueAfter := 0, error := some errListUsages,
        trace := tr ++ [Effect.event EventType.warning "ListUsages"] }
    | ListOutcome.ok items =>
      if items.length < 2 then
        let used' : Object := { used with labels := removeLabel used.labels inUseLabelKey }
        if env.updateUsedOk then finalize env (tr ++ [Effect.updateUsed used'])
        else
          { requeueAfter := 0, error := some errRemoveInUseLabel,
            trace := tr ++ [Effect.event EventType.warning "RemoveInUseLabel"] }
      else finalize env tr

/-- The guard of the same-composite wait: the Usage's composite-name
label is non-empty, equals the using resource's, and the `Get` of the
using resource returned nil error. -/
def compositeGuard (u : Usage) (usingObj : Object) : Bool :=
  getLabel u.labels LabelKeyNamePrefixForComposed != "" &&
    getLabel u.labels LabelKeyNamePrefixForComposed ==
      getLabel usingObj.labels LabelKeyNamePrefixForComposed

/-- The deletion path (`meta.WasDeleted(u)` is true): when `by` is set,
fetch the using resource (a non-NotFound error fails the pass; NotFound
falls through); when the same-composite guard holds, record a Normal
`WaitingUsingDeleted` event and requeue after 30 seconds; otherwise run
label cleanup and finalizer removal. -/
def deletionPath (env : Env) (u : Usage) (tr : List Effect) : ReconcileOutput :=
  match u.spec.by_ with
  | none => labelCleanup env tr
  | some _ =>
    match env.getUsing with
    | GetOutcome.transientErr =>
      { requeueAfter := 0, error := some errGetUsing,
        trace := tr ++ [Effect.event EventType.warning "GetUsingResource"] }
    | GetOutcome.notFound => labelCleanup env tr
    | GetOutcome.ok usingObj =>
      if compositeGuard u usingObj then
        { requeueAfter := 30, error := none,
          trace := tr ++ [Effect.event EventType.normal "WaitingUsingDeleted"] }
      else labelCleanup env tr

/-- The final block of the steady-state path: record the Normal
`UsageConfigured` event, then write status conditions through the status
subresource; the returned error is the (wrapped) status-update error. -/
def statusStep (env : Env) (tr : List Effect) : ReconcileOutput :=
  { requeueAfter := 0,
    error := if env.statusUpdateOk then none else some errUpdateStatus,
    trace := tr ++ [Effect.event EventType.normal "UsageConfigured", Effect.statusUpdate] }

/-- The guard of the owner-reference block: the Usage has no owner
references, or the UID of its first owner reference differs from the
using resource's UID. -/
def ownerGuard (u : Usage) (usingObj : Object) : Bool :=
  match u.ownerReferences with
  | [] => true
  | r :: _ => r.uid != usingObj.uid

/-- The owner-reference block of the steady-state path: when `by` is set,
fetch the using resource (any error, NotFound included, fails the pass);
when the owner guard holds, `meta.AddOwnerReference` the non-controlling
`AsOwner(using)` reference onto the Usage and persist it. -/
def ownerStep (env : Env) (u : Usage) (tr : List Effect) : ReconcileOutput :=
  match u.spec.by_ with
  | none => statusStep env tr
  | some _ =>
    match env.getUsing with
    | GetOutcome.ok usingObj =>
      if ownerGuard u usingObj then
        let u' : Usage :=
          { u with ownerReferences := addOwnerReference u.ownerReferences (asOwner usingObj) }
        if env.updateUsageOk then statusStep env (tr ++ [Effect.updateUsage u'])
        else
          { requeueAfter := 0, error := some errAddOwnerToUsage,
            trace := tr ++ [Effect.event EventType.warning "AddOwnerRefToUsage"] }
      else statusStep env tr
    | _ =>
      { requeueAfter := 0, error := some errGetUsing,
        trace := tr ++ [Effect.event EventType.warning "GetUsingResource"] }

/-- The steady-state path (no deletion timestamp): add the finalizer (a
failure returns `reconcile.Result{}, nil`); fetch the used resource (any
error, NotFound included, fails the pass); when the in-use label is not
`"true"` or the used resource's owner set lacks the Usage UID, add the
label (and only the label) and persist the used resource; then the
owner-reference block and the status write. -/
def steadyPath (env : Env) (u : Usage) (tr : List Effect) : ReconcileOutput :=
  if !env.addFinalizerOk then
    { requeueAfter := 0, error := none,
      trace := tr ++ [Effect.event EventType.warning "AddFinalizer"] }
  else
    let tr := tr ++ [Effect.addFinalizer]
    match env.getUsed with
    | GetOutcome.ok used =>
      if getLabel used.labels inUseLabelKey != "true" || !ownedBy used u.uid then
        let used' : Object := { used with labels := setLabel used.labels inUseLabelKey "true" }
        if env.updateUsedOk then ownerStep env u (tr ++ [Effect.updateUsed used'])
        else
          { requeueAfter := 0, error := some errAddInUseLabel,
            trace := tr ++ [Effect.event EventType.warning "AddInUseLabel"] }
      else ownerStep env u tr
    | _ =>
      { requeueAfter := 0, error := some errGetUsed,
        trace := tr ++ [Effect.event EventType.warning "GetUsedResource"] }

/-- One reconcile pass on a fetched Usage: resolve selectors (a failure
records a Warning event and fails the pass; success records a Normal
event), then branch on the deletion timestamp. -/
def Reconcile (env : Env) (u : Usage) : ReconcileOutput :=
  if !env.resolveOk then
    { requeueAfter := 0, error := some errResolveSelectors,
      trace := [Effect.event EventType.warning "ResolveSelectors"] }
  else
    let tr := [Effect.event EventType.normal "ResolveSelectors"]
    if u.deleted then deletionPath env u tr else steadyPath env u tr

/-! ## Helper lemmas about the webhook deny loop -/

/-- If the first exact match in a Usage list has its `by` reference set,
the deny loop returns the denial built from the GVK string of the object
and the `by` name. -/
theorem checkUsages_denied_of_find (obj : Object) (g : Usage) (b : Resource)
    (items : List Usage)
    (h : items.find? (fun w => matchesOf w obj) = some g)
    (hby : g.spec.by_ = some b) :
    checkUsages obj items =
      AdmissionResponse.denied
        ("The resource is used by " ++ gvkString obj ++ "/" ++ b.name) := by
  induction items with
  | nil => simp [List.find?] at h
  | cons w rest ih =>
    cases hm : matchesOf w obj with
    | false =>
      rw [List.find?] at h
      simp only [hm] at h
      simpa [checkUsages, hm] using ih h
    | true =>
      rw [List.find?] at h
      simp only [hm, Option.some.injEq] at h
      cases h
      simp [checkUsages, hm, hby]

/-- If the first exact match in a Usage list has no `by` reference, the
deny loop dereferences a nil pointer: the handler panics. -/
theorem checkUsages_panicked_of_find (obj : Object) (g : Usage)
    (items : List Usage)
    (h : items.find? (fun w => matchesOf w obj) = some g)
    (hby : g.spec.by_ = none) :
    checkUsages obj items = AdmissionResponse.panicked := by
  induction items with
  | nil => simp [List.find?] at h
  | cons w rest ih =>
    cases hm : matchesOf w obj with
    | false =>
      rw [List.find?] at h
      simp only [hm] at h
      simpa [checkUsages, hm] using ih h
    | true =>
      rw [List.find?] at h
      simp only [hm, Option.some.injEq] at h
      cases h
      simp [checkUsages, hm, hby]

/-- If no Usage in a list exactly matches the object, the deny loop
allows. -/
theorem checkUsages_allowed_of_none (obj : Object) (items : List Usage)
    (h : ∀ g ∈ items, matchesOf g obj = false) :
    checkUsages obj items = AdmissionResponse.allowed "" := by
  induction items with
  | nil => rfl
  | cons w rest ih =>
    have hw : matchesOf w obj = false := h w (by simp)
    simpa [checkUsages, hw] using ih (fun g hg => h g (by simp [hg]))

/-! ## Claim C1 -/

/-- A Usage pinning `example.org/v1 A/a` with no `by` reference (an
"unowned pin", which the API allows since `by` is optional). -/
def c1Usage : Usage :=
  { uid := "u-1", labels := [], ownerReferences := [], deleted := false,
    spec := { of := { apiVersion := "example.org/v1", kind := "A", name := "a" },
              by_ := none } }

/-- The object of a DELETE admission request on `example.org/v1 A/a`. -/
def c1Object : Object :=
  { apiVersion := "example.org/v1", kind := "A", name := "a", uid := "uid-a",
    labels := [], ownerReferences := [] }

/-- C1: the claim says a DELETE is denied whenever a Usage with matching
`spec.of` exists.  At this input a matching Usage exists but carries no
`by` reference, and the handler dereferences the nil `Spec.By` pointer
while building the denial message: the pass panics instead of returning
a denial. -/
theorem C1_delete_with_matching_unowned_usage_panics :
    Handle [c1Usage] false Operation.delete (some c1Object) =
      AdmissionResponse.panicked := by
  decide

/-! ## Claim C4 -/

/-- A Usage of `example.org/v1 A/a` held by `B/b1`. -/
def c4Usage : Usage :=
  { uid := "u-4", labels := [], ownerReferences := [], deleted := false,
    spec := { of := { apiVersion := "example.org/v1", kind := "A", name := "a" },
              by_ := some { apiVersion := "example.org/v1", kind := "B", name := "b1" } } }

/-- The object of a DELETE admission request on `example.org/v1 A/a`. -/
def c4Object : Object :=
  { apiVersion := "example.org/v1", kind := "A", name := "a", uid := "uid-a",
    labels := [], ownerReferences := [] }

/-- C4 counterexample: the denial message is built from
`u.GroupVersionKind().String()`, i.e. `"example.org/v1, Kind=A"`, not
from the bare kind `"A"` that the claim states; the claimed message
`"The resource is used by A/b1"` is not what the handler returns. -/
theorem C4_counterexample_message_uses_gvk_not_kind :
    validateNoUsages [c4Usage] false c4Object =
      AdmissionResponse.denied "The resource is used by example.org/v1, Kind=A/b1" ∧
    validateNoUsages [c4Usage] false c4Object ≠
      AdmissionResponse.denied "The resource is used by A/b1" := by
  constructor
  · decide
  · decide

/-- C4 amended: when the webhook denies a DELETE because a Usage matches
the object's GVK and name (and the first such Usage's `by` reference is
set), the denial message is exactly
`"The resource is used by <GroupVersionKind-string>/<usage.spec.by.name>"`,
where the GVK string is `Group + "/" + Version + ", Kind=" + Kind` of the
used object — `"example.org/v1, Kind=A"` for a grouped object,
`"/v1, Kind=ConfigMap"` (leading slash) for a core-group one — not the
bare kind. -/
theorem C4_amended_denial_message (store : List Usage) (obj : Object)
    (g : Usage) (b : Resource)
    (hfind : (store.filter
        (fun w => getIndexValueForUsage w == getIndexValueForObject obj)).find?
        (fun w => matchesOf w obj) = some g)
    (hby : g.spec.by_ = some b) :
    validateNoUsages store false obj =
      AdmissionResponse.denied
        ("The resource is used by " ++ gvkString obj ++ "/" ++ b.name) :=
  checkUsages_denied_of_find obj g b _ hfind hby

/-- A core-group Usage: `v1 ConfigMap/cm` held by `Pod/p`. -/
def c4CoreUsage : Usage :=
  { uid := "u-4c", labels := [], ownerReferences := [], deleted := false,
    spec := { of := { apiVersion := "v1", kind := "ConfigMap", name := "cm" },
              by_ := some { apiVersion := "v1", kind := "Pod", name := "p" } } }

/-- The object of a DELETE admission request on `v1 ConfigMap/cm`. -/
def c4CoreObject : Object :=
  { apiVersion := "v1", kind := "ConfigMap", name := "cm", uid := "uid-cm",
    labels := [], ownerReferences := [] }

/-- C4 amended, at concrete inputs: a grouped object is denied with
`"example.org/v1, Kind=A"`, and a core-group object with the
leading-slash form `"/v1, Kind=ConfigMap"` that
`GroupVersionKind.String()` prints for an empty group. -/
theorem C4_amended_denial_message_witness :
    validateNoUsages [c4Usage] false c4Object =
      AdmissionResponse.denied "The resource is used by example.org/v1, Kind=A/b1" ∧
    validateNoUsages [c4CoreUsage] false c4CoreObject =
      AdmissionResponse.denied "The resource is used by /v1, Kind=ConfigMap/p" :=
  ⟨C4_amended_denial_message [c4Usage] c4Object c4Usage
     { apiVersion := "example.org/v1", kind := "B", name := "b1" }
     (by decide) rfl,
   C4_amended_denial_message [c4CoreUsage] c4CoreObject c4CoreUsage
     { apiVersion := "v1", kind := "Pod", name := "p" }
     (by decide) rfl⟩

/-! ## Claim C10 -/

/-- C10: whenever the deny loop of the webhook reaches a matching Usage
whose `spec.by` is absent (the first exact match of the indexed list has
`by_ = none`), building the denial message dereferences
`usage.Spec.By.Name` on a nil pointer: the handler panics instead of
producing a response, so the deny branch is not total for unowned
Usages. -/
theorem C10_deny_branch_panics_on_unowned (store : List Usage) (obj : Object)
    (g : Usage)
    (hfind : (store.filter
        (fun w => getIndexValueForUsage w == getIndexValueForObject obj)).find?
        (fun w => matchesOf w obj) = some g)
    (hby : g.spec.by_ = none) :
    Handle store false Operation.delete (some obj) = AdmissionResponse.panicked :=
  checkUsages_panicked_of_find obj g _ hfind hby

/-- An unowned Usage pinning `v1 ConfigMap/cm1`. -/
def c10Usage : Usage :=
  { uid := "u-10", labels := [], ownerReferences := [], deleted := false,
    spec := { of := { apiVersion := "v1", kind := "ConfigMap", name := "cm1" },
              by_ := none } }

/-- The object of a DELETE admission request on `v1 ConfigMap/cm1`. -/
def c10Object : Object :=
  { apiVersion := "v1", kind := "ConfigMap", name := "cm1", uid := "uid-cm1",
    labels := [], ownerReferences := [] }

/-- C10 at a concrete input: a DELETE on `v1 ConfigMap/cm1` with a single
matching unowned Usage in the store makes the handler panic. -/
theorem C10_deny_branch_panics_on_unowned_witness :
    Handle [c10Usage] false Operation.delete (some c10Object) =
      AdmissionResponse.panicked :=
  C10_deny_branch_panics_on_unowned [c10Usage] c10Object c10Usage (by decide) rfl

/-! ## Helper lemmas about reconcile traces -/

/-- A pass output in which a failed label removal excludes the finalizer
removal, and a successful finalizer removal is the last effect of the
pass (and the only occurrence of `removeFinalizer`). -/
def CleanFinal (out : ReconcileOutput) : Prop :=
  (out.error = some errRemoveInUseLabel →
    Effect.removeFinalizer ∉ out.trace) ∧
  (Effect.removeFinalizer ∈ out.trace →
    ∃ l, out.trace = l ++ [Effect.removeFinalizer] ∧
      Effect.removeFinalizer ∉ l)

/-- An output whose trace lacks `removeFinalizer` is trivially clean. -/
theorem cleanFinal_of_not_mem (out : ReconcileOutput)
    (h : Effect.removeFinalizer ∉ out.trace) : CleanFinal out :=
  ⟨fun _ => h, fun hm => absurd hm h⟩

/-- `finalize` appends `removeFinalizer` last (or fails without it). -/
theorem finalize_cleanFinal (env : Env) (tr : List Effect)
    (h : Effect.removeFinalizer ∉ tr) : CleanFinal (finalize env tr) := by
  unfold finalize
  by_cases hr : env.removeFinalizerOk
  · simp only [hr, if_true]
    refine ⟨fun herr => by simp at herr, fun _ => ⟨tr, rfl, h⟩⟩
  · simp only [hr, if_false]
    refine cleanFinal_of_not_mem _ ?_
    simp [h]

/-- `labelCleanup` is clean: each of its error returns (including a
failed label removal) leaves no `removeFinalizer` in the trace, and its
successful paths end in `finalize`. -/
theorem labelCleanup_cleanFinal (env : Env) (tr : List Effect)
    (h : Effect.removeFinalizer ∉ tr) : CleanFinal (labelCleanup env tr) := by
  unfold labelCleanup
  cases hg : env.getUsed with
  | transientErr => exact cleanFinal_of_not_mem _ (by simp [h])
  | notFound => exact finalize_cleanFinal env tr h
  | ok used =>
    cases hl : env.listUsages with
    | err => exact cleanFinal_of_not_mem _ (by simp [h])
    | ok items =>
      by_cases hlen : items.length < 2
      · simp only [hlen, if_true]
        by_cases hu : env.updateUsedOk
        · simp only [hu, if_true]
          exact finalize_cleanFinal env _ (by simp [h])
        · simp only [hu, if_false]
          exact cleanFinal_of_not_mem _ (by simp [h])
      · simp only [hlen, if_false]
        exact finalize_cleanFinal env tr h

/-- `deletionPath` is clean. -/
theorem deletionPath_cleanFinal (env : Env) (u : Usage) (tr : List Effect)
    (h : Effect.removeFinalizer ∉ tr) : CleanFinal (deletionPath env u tr) := by
  unfold deletionPath
  cases hby : u.spec.by_ with
  | none => exact labelCleanup_cleanFinal env tr h
  | some b =>
    cases hg : env.getUsing with
    | transientErr => exact cleanFinal_of_not_mem _ (by simp [h])
    | notFound => exact labelCleanup_cleanFinal env tr h
    | ok usingObj =>
      by_cases hc : compositeGuard u usingObj
      · simp only [hc, if_true]
        exact cleanFinal_of_not_mem _ (by simp [h])
      · simp only [hc, if_false]
        exact labelCleanup_cleanFinal env tr h

/-- `statusStep` appends no `removeFinalizer`. -/
theorem statusStep_not_mem (env : Env) (tr : List Effect)
    (h : Effect.removeFinalizer ∉ tr) :
    Effect.removeFinalizer ∉ (statusStep env tr).trace := by
  simp [statusStep, h]

/-- `ownerStep` appends no `removeFinalizer`. -/
theorem ownerStep_not_mem (env : Env) (u : Usage) (tr : List Effect)
    (h : Effect.removeFinalizer ∉ tr) :
    Effect.removeFinalizer ∉ (ownerStep env u tr).trace := by
  unfold ownerStep
  cases hby : u.spec.by_ with
  | none => exact statusStep_not_mem env tr h
  | some b =>
    cases hg : env.getUsing with
    | transientErr => simp [h]
    | notFound => simp [h]
    | ok usingObj =>
      by_cases ho : ownerGuard u usingObj
      · simp only [ho, if_true]
        by_cases hu : env.updateUsageOk
        · simp only [hu, if_true]
          exact statusStep_not_mem env _ (by simp [h])
        · simp only [hu, if_false]
          simp [h]
      · simp only [ho, if_false]
        exact statusStep_not_mem env tr h

/-- The steady-state path never removes the finalizer. -/
theorem steadyPath_not_mem (env : Env) (u : Usage) (tr : List Effect)
    (h : Effect.removeFinalizer ∉ tr) :
    Effect.removeFinalizer ∉ (steadyPath env u tr).trace := by
  unfold steadyPath
  by_cases hf : env.addFinalizerOk
  · simp only [hf, Bool.not_true, Bool.false_eq_true, if_false]
    cases hg : env.getUsed with
    | transientErr => simp [h]
    | notFound => simp [h]
    | ok used =>
      by_cases hl : (getLabel used.labels inUseLabelKey != "true" || !ownedBy used u.uid)
      · simp only [hl, if_true]
        by_cases hu : env.updateUsedOk
        · simp only [hu, if_true]
          exact ownerStep_not_mem env u _ (by simp [h])
        · simp only [hu, if_false]
          simp [h]
      · simp only [hl, if_false]
        exact ownerStep_not_mem env u _ (by simp [h])
  · simp only [hf, Bool.not_false, if_true]
    simp [h]

/-- Every reconcile pass is clean. -/
theorem reconcile_cleanFinal (env : Env) (u : Usage) :
    CleanFinal (Reconcile env u) := by
  unfold Reconcile
  by_cases hr : env.resolveOk
  · simp only [hr, Bool.not_true, Bool.false_eq_true, if_false]
    by_cases hd : u.deleted
    · simp only [hd, if_true]
      exact deletionPath_cleanFinal env u _ (by simp)
    · simp only [hd, if_false]
      exact cleanFinal_of_not_mem _ (steadyPath_not_mem env u _ (by simp))
  · simp only [hr, Bool.not_false, if_true]
    exact cleanFinal_of_not_mem _ (by simp)

/-- If a list ends in its only occurrence of `a`, any decomposition
around an occurrence of `a` has nothing after it. -/
theorem eq_nil_of_append_singleton {α : Type} (a : α) :
    ∀ (l l1 l2 : List α), l ++ [a] = l1 ++ a :: l2 → a ∉ l → l2 = [] := by
  intro l l1
  induction l1 generalizing l with
  | nil =>
    intro l2 heq hmem
    cases l with
    | nil => simpa using heq.symm
    | cons x l' =>
      simp only [List.cons_append, List.nil_append, List.cons.injEq] at heq
      exact absurd (heq.1 ▸ List.mem_cons_self x l') hmem
  | cons y l1' ih =>
    intro l2 heq hmem
    cases l with
    | nil =>
      have hlen := congrArg List.length heq
      simp [Nat.add_comm] at hlen
    | cons x l' =>
      simp only [List.cons_append, List.cons.injEq] at heq
      exact ih l' l2 heq.2 (fun hm => hmem (List.mem_cons_of_mem x hm))

/-- The conditions under which the deletion path falls through to label
cleanup: no `by` reference, or the using resource is NotFound, or it is
fetched and the same-composite guard does not hold. -/
def reachesCleanup (env : Env) (u : Usage) : Prop :=
  u.spec.by_ = none ∨ env.getUsing = GetOutcome.notFound ∨
    ∃ o, env.getUsing = GetOutcome.ok o ∧ compositeGuard u o = false

/-- When the deletion path falls through, it is exactly label cleanup
followed by finalizer removal. -/
theorem deletionPath_eq_labelCleanup (env : Env) (u : Usage) (tr : List Effect)
    (h : reachesCleanup env u) : deletionPath env u tr = labelCleanup env tr := by
  unfold deletionPath
  rcases h with h | h | ⟨o, h1, h2⟩
  · simp [h]
  · cases hby : u.spec.by_ with
    | none => simp
    | some b => simp [h]
  · cases hby : u.spec.by_ with
    | none => simp
    | some b => simp [h1, h2]

/-- A pass on a deleted Usage is the deletion path after the resolve
event. -/
theorem reconcile_deleted (env : Env) (u : Usage)
    (hres : env.resolveOk = true) (hdel : u.deleted = true) :
    Reconcile env u =
      deletionPath env u [Effect.event EventType.normal "ResolveSelectors"] := by
  simp [Reconcile, hres, hdel]

/-- A pass on a non-deleted Usage is the steady-state path after the
resolve event. -/
theorem reconcile_steady (env : Env) (u : Usage)
    (hres : env.resolveOk = true) (hdel : u.deleted = false) :
    Reconcile env u =
      steadyPath env u [Effect.event EventType.normal "ResolveSelectors"] := by
  simp [Reconcile, hres, hdel]

/-! ## Claim C7 -/

/-- C7: in every reconcile pass, if the pass fails because the required
in-use label removal failed (`errRemoveInUseLabel`), the finalizer is not
removed in that pass; and whenever the finalizer is removed, no write to
the used resource (in particular the label removal) happens after it —
the label removal happens-before the finalizer removal. -/
theorem C7_label_removal_before_finalizer_removal (env : Env) (u : Usage) :
    ((Reconcile env u).error = some errRemoveInUseLabel →
      Effect.removeFinalizer ∉ (Reconcile env u).trace) ∧
    (∀ l1 l2, (Reconcile env u).trace = l1 ++ Effect.removeFinalizer :: l2 →
      ∀ o, Effect.updateUsed o ∉ l2) := by
  obtain ⟨h1, h2⟩ := reconcile_cleanFinal env u
  refine ⟨h1, ?_⟩
  intro l1 l2 htr o
  have hmem : Effect.removeFinalizer ∈ (Reconcile env u).trace := by
    rw [htr]
    exact List.mem_append_right l1 (List.mem_cons_self _ l2)
  obtain ⟨l, hl, hnot⟩ := h2 hmem
  have h0 : l2 = [] :=
    eq_nil_of_append_singleton Effect.removeFinalizer l l1 l2
      (hl.symm.trans htr) hnot
  rw [h0]
  simp

/-- A deleted unowned Usage whose used resource is present with no other
Usage referencing it, in an environment where the label-removal update
fails. -/
def c7Usage : Usage :=
  { uid := "u-7", labels := [], ownerReferences := [], deleted := true,
    spec := { of := { apiVersion := "v1", kind := "A", name := "a" }, by_ := none } }

/-- Environment for C7's first conjunct: the `Update` removing the
in-use label fails. -/
def c7EnvFail : Env :=
  { resolveOk := true, getUsing := GetOutcome.notFound,
    getUsed := GetOutcome.ok
      { apiVersion := "v1", kind := "A", name := "a", uid := "uid-a",
        labels := [("crossplane.io/in-use", "true")], ownerReferences := [] },
    listUsages := ListOutcome.ok [c7Usage],
    addFinalizerOk := true, updateUsedOk := false, updateUsageOk := true,
    removeFinalizerOk := true, statusUpdateOk := true }

/-- Environment for C7's second conjunct: the used resource is already
gone, so the pass goes straight to finalizer removal. -/
def c7EnvGone : Env :=
  { resolveOk := true, getUsing := GetOutcome.notFound,
    getUsed := GetOutcome.notFound, listUsages := ListOutcome.ok [],
    addFinalizerOk := true, updateUsedOk := true, updateUsageOk := true,
    removeFinalizerOk := true, statusUpdateOk := true }

/-- C7 at concrete inputs: with a failing label removal the finalizer
survives the pass, and in a pass that does remove the finalizer nothing
follows the removal. -/
theorem C7_label_removal_before_finalizer_removal_witness :
    Effect.removeFinalizer ∉ (Reconcile c7EnvFail c7Usage).trace ∧
    Effect.updateUsed
        { apiVersion := "v1", kind := "A", name := "a", uid := "uid-a",
          labels := [], ownerReferences := [] } ∉ ([] : List Effect) :=
  ⟨(C7_label_removal_before_finalizer_removal c7EnvFail c7Usage).1 (by decide),
   (C7_label_removal_before_finalizer_removal c7EnvGone c7Usage).2
     [Effect.event EventType.normal "ResolveSelectors"] [] (by decide) _⟩

/-! ## Claim C3 -/

/-- C3: in the deletion path with the used resource still present, the
pass lists Usages via the reverse index; when at most one is returned it
removes the in-use label from the used resource and persists that write,
and when two or more are returned it performs no write to the used
resource. -/
theorem C3_label_removed_iff_last_usage (env : Env) (u : Usage)
    (used : Object) (items : List Usage)
    (hres : env.resolveOk = true) (hdel : u.deleted = true)
    (hreach : reachesCleanup env u)
    (hget : env.getUsed = GetOutcome.ok used)
    (hlist : env.listUsages = ListOutcome.ok items)
    (hupd : env.updateUsedOk = true) :
    (items.length ≤ 1 →
      Effect.updateUsed { used with labels := removeLabel used.labels inUseLabelKey }
        ∈ (Reconcile env u).trace) ∧
    (2 ≤ items.length → ∀ o, Effect.updateUsed o ∉ (Reconcile env u).trace) := by
  have hR : Reconcile env u =
      labelCleanup env [Effect.event EventType.normal "ResolveSelectors"] :=
    (reconcile_deleted env u hres hdel).trans
      (deletionPath_eq_labelCleanup env u _ hreach)
  rw [hR]
  unfold labelCleanup
  constructor
  · intro hle
    have hlt : items.length < 2 := by omega
    simp only [hget, hlist, hlt, if_true, hupd]
    unfold finalize
    by_cases hrf : env.removeFinalizerOk <;> simp [hrf]
  · intro hge o
    have hlt : ¬ items.length < 2 := by omega
    simp only [hget, hlist, hlt, if_false]
    unfold finalize
    by_cases hrf : env.removeFinalizerOk <;> simp [hrf]

/-- A deleted unowned Usage of `v1 A/a`. -/
def c3Usage : Usage :=
  { uid := "u-3", labels := [], ownerReferences := [], deleted := true,
    spec := { of := { apiVersion := "v1", kind := "A", name := "a" }, by_ := none } }

/-- The used resource `v1 A/a`, still labelled in-use. -/
def c3Used : Object :=
  { apiVersion := "v1", kind := "A", name := "a", uid := "uid-a",
    labels := [("crossplane.io/in-use", "true")], ownerReferences := [] }

/-- Environment where the reverse index returns only the Usage being
deleted. -/
def c3EnvOne : Env :=
  { resolveOk := true, getUsing := GetOutcome.notFound,
    getUsed := GetOutcome.ok c3Used, listUsages := ListOutcome.ok [c3Usage],
    addFinalizerOk := true, updateUsedOk := true, updateUsageOk := true,
    removeFinalizerOk := true, statusUpdateOk := true }

/-- Environment where the reverse index returns two Usages. -/
def c3EnvTwo : Env :=
  { resolveOk := true, getUsing := GetOutcome.notFound,
    getUsed := GetOutcome.ok c3Used, listUsages := ListOutcome.ok [c3Usage, c3Usage],
    addFinalizerOk := true, updateUsedOk := true, updateUsageOk := true,
    removeFinalizerOk := true, statusUpdateOk := true }

/-- C3 at concrete inputs: with one indexed Usage the label-removing
write is in the trace; with two it is not. -/
theorem C3_label_removed_iff_last_usage_witness :
    Effect.updateUsed
        { c3Used with labels := removeLabel c3Used.labels inUseLabelKey }
        ∈ (Reconcile c3EnvOne c3Usage).trace ∧
    Effect.updateUsed
        { c3Used with labels := removeLabel c3Used.labels inUseLabelKey }
        ∉ (Reconcile c3EnvTwo c3Usage).trace :=
  ⟨(C3_label_removed_iff_last_usage c3EnvOne c3Usage c3Used [c3Usage]
      rfl rfl (Or.inl rfl) rfl rfl rfl).1 (by decide),
   (C3_label_removed_iff_last_usage c3EnvTwo c3Usage c3Used [c3Usage, c3Usage]
      rfl rfl (Or.inl rfl) rfl rfl rfl).2 (by decide) _⟩

/-! ## Claim C5 -/

/-- C5: for a deleted Usage with a `by` reference whose using resource is
fetched successfully, if the Usage and the using resource carry identical
non-empty composite-name-prefix labels, the pass records exactly the
Normal `WaitingUsingDeleted` event and returns a 30-second requeue with
no error. -/
theorem C5_same_composite_waits (env : Env) (u : Usage) (b : Resource)
    (usingObj : Object)
    (hres : env.resolveOk = true) (hdel : u.deleted = true)
    (hby : u.spec.by_ = some b)
    (hget : env.getUsing = GetOutcome.ok usingObj)
    (hne : getLabel u.labels LabelKeyNamePrefixForComposed ≠ "")
    (heq : getLabel u.labels LabelKeyNamePrefixForComposed =
      getLabel usingObj.labels LabelKeyNamePrefixForComposed) :
    Reconcile env u =
      { requeueAfter := 30, error := none,
        trace := [Effect.event EventType.normal "ResolveSelectors",
                  Effect.event EventType.normal "WaitingUsingDeleted"] } := by
  have hg : compositeGuard u usingObj = true := by
    rw [compositeGuard, ← heq]
    simp [hne]
  rw [reconcile_deleted env u hres hdel]
  unfold deletionPath
  simp [hby, hget, hg]

/-- A deleted Usage held by `B/b`, tagged with composite prefix `p1`. -/
def c5Usage : Usage :=
  { uid := "u-5", labels := [("crossplane.io/composite", "p1")],
    ownerReferences := [], deleted := true,
    spec := { of := { apiVersion := "v1", kind := "A", name := "a" },
              by_ := some { apiVersion := "v1", kind := "B", name := "b" } } }

/-- The still-existing using resource with the same composite prefix. -/
def c5Using : Object :=
  { apiVersion := "v1", kind := "B", name := "b", uid := "uid-b",
    labels := [("crossplane.io/composite", "p1")], ownerReferences := [] }

/-- Environment where the using resource is fetched successfully. -/
def c5Env : Env :=
  { resolveOk := true, getUsing := GetOutcome.ok c5Using,
    getUsed := GetOutcome.notFound, listUsages := ListOutcome.ok [],
    addFinalizerOk := true, updateUsedOk := true, updateUsageOk := true,
    removeFinalizerOk := true, statusUpdateOk := true }

/-- C5 at a concrete input. -/
theorem C5_same_composite_waits_witness :
    Reconcile c5Env c5Usage =
      { requeueAfter := 30, error := none,
        trace := [Effect.event EventType.normal "ResolveSelectors",
                  Effect.event EventType.normal "WaitingUsingDeleted"] } :=
  C5_same_composite_waits c5Env c5Usage
    { apiVersion := "v1", kind := "B", name := "b" } c5Using
    rfl rfl rfl rfl (by decide) (by decide)

/-! ## Claim C8 -/

/-- C8: a NotFound when fetching the used resource fails the pass during
steady state, while during the deletion path it is swallowed: no write to
the used resource happens, yet the finalizer is still removed and the
pass returns without error. -/
theorem C8_notFound_used_steady_vs_deletion (env : Env) (u : Usage) :
    (env.resolveOk = true → u.deleted = false → env.addFinalizerOk = true →
      env.getUsed = GetOutcome.notFound →
      (Reconcile env u).error = some errGetUsed) ∧
    (env.resolveOk = true → u.deleted = true → reachesCleanup env u →
      env.getUsed = GetOutcome.notFound → env.removeFinalizerOk = true →
      (Reconcile env u).error = none ∧
      (∀ o, Effect.updateUsed o ∉ (Reconcile env u).trace) ∧
      Effect.removeFinalizer ∈ (Reconcile env u).trace) := by
  constructor
  · intro hres hdel hfin hget
    rw [reconcile_steady env u hres hdel]
    unfold steadyPath
    simp [hfin, hget]
  · intro hres hdel hreach hget hrf
    have hR : Reconcile env u =
        labelCleanup env [Effect.event EventType.normal "ResolveSelectors"] :=
      (reconcile_deleted env u hres hdel).trans
        (deletionPath_eq_labelCleanup env u _ hreach)
    rw [hR]
    unfold labelCleanup finalize
    simp [hget, hrf]

/-- A non-deleted unowned Usage of `v1 A/a`. -/
def c8Steady : Usage :=
  { uid := "u-8", labels := [], ownerReferences := [], deleted := false,
    spec := { of := { apiVersion := "v1", kind := "A", name := "a" }, by_ := none } }

/-- The same Usage marked for deletion. -/
def c8Deleted : Usage :=
  { c8Steady with deleted := true }

/-- Environment where the used resource is NotFound. -/
def c8Env : Env :=
  { resolveOk := true, getUsing := GetOutcome.notFound,
    getUsed := GetOutcome.notFound, listUsages := ListOutcome.ok [],
    addFinalizerOk := true, updateUsedOk := true, updateUsageOk := true,
    removeFinalizerOk := true, statusUpdateOk := true }

/-- C8 at concrete inputs: the same NotFound store fails the steady-state
pass and is swallowed by the deletion pass. -/
theorem C8_notFound_used_steady_vs_deletion_witness :
    (Reconcile c8Env c8Steady).error = some errGetUsed ∧
    (Reconcile c8Env c8Deleted).error = none ∧
    Effect.removeFinalizer ∈ (Reconcile c8Env c8Deleted).trace :=
  ⟨(C8_notFound_used_steady_vs_deletion c8Env c8Steady).1 rfl rfl rfl rfl,
   ((C8_notFound_used_steady_vs_deletion c8Env c8Deleted).2
      rfl rfl (Or.inl rfl) rfl rfl).1,
   ((C8_notFound_used_steady_vs_deletion c8Env c8Deleted).2
      rfl rfl (Or.inl rfl) rfl rfl).2.2⟩

/-! ## Claim C9 -/

/-- C9: when adding the finalizer fails on a non-deleted Usage, the pass
returns the zero result with a nil error, and neither a finalizer add nor
any write to the used resource is in the trace. -/
theorem C9_failed_finalizer_add_returns_nil (env : Env) (u : Usage)
    (hres : env.resolveOk = true) (hdel : u.deleted = false)
    (hfin : env.addFinalizerOk = false) :
    (Reconcile env u).error = none ∧ (Reconcile env u).requeueAfter = 0 ∧
    (∀ o, Effect.updateUsed o ∉ (Reconcile env u).trace) ∧
    Effect.addFinalizer ∉ (Reconcile env u).trace := by
  have hR : Reconcile env u =
      { requeueAfter := 0, error := none,
        trace := [Effect.event EventType.normal "ResolveSelectors",
                  Effect.event EventType.warning "AddFinalizer"] } := by
    rw [reconcile_steady env u hres hdel]
    unfold steadyPath
    simp [hfin]
  rw [hR]
  refine ⟨rfl, rfl, ?_, ?_⟩ <;> simp

/-- Environment where the finalizer add fails. -/
def c9Env : Env :=
  { resolveOk := true, getUsing := GetOutcome.notFound,
    getUsed := GetOutcome.ok
      { apiVersion := "v1", kind := "A", name := "a", uid := "uid-a",
        labels := [], ownerReferences := [] },
    listUsages := ListOutcome.ok [],
    addFinalizerOk := false, updateUsedOk := true, updateUsageOk := true,
    removeFinalizerOk := true, statusUpdateOk := true }

/-- A non-deleted unowned Usage of `v1 A/a`, for C9. -/
def c9Usage : Usage :=
  { uid := "u-9", labels := [], ownerReferences := [], deleted := false,
    spec := { of := { apiVersion := "v1", kind := "A", name := "a" }, by_ := none } }

/-- C9 at a concrete input. -/
theorem C9_failed_finalizer_add_returns_nil_witness :
    (Reconcile c9Env c9Usage).error = none ∧
    Effect.updateUsed
        { apiVersion := "v1", kind := "A", name := "a", uid := "uid-a",
          labels := [], ownerReferences := [] }
      ∉ (Reconcile c9Env c9Usage).trace :=
  ⟨(C9_failed_finalizer_add_returns_nil c9Env c9Usage rfl rfl rfl).1,
   (C9_failed_finalizer_add_returns_nil c9Env c9Usage rfl rfl rfl).2.2.1 _⟩

/-! ## Claim C2 -/

/-- A non-deleted unowned Usage of `example.org/v1 A/a` with UID `u-2`. -/
def c2Usage : Usage :=
  { uid := "u-2", labels := [], ownerReferences := [], deleted := false,
    spec := { of := { apiVersion := "example.org/v1", kind := "A", name := "a" },
              by_ := none } }

/-- The used resource, unlabelled and with an empty owner set. -/
def c2Used : Object :=
  { apiVersion := "example.org/v1", kind := "A", name := "a", uid := "uid-used",
    labels := [], ownerReferences := [] }

/-- Environment where every store call succeeds. -/
def c2Env : Env :=
  { resolveOk := true, getUsing := GetOutcome.notFound,
    getUsed := GetOutcome.ok c2Used, listUsages := ListOutcome.ok [],
    addFinalizerOk := true, updateUsedOk := true, updateUsageOk := true,
    removeFinalizerOk := true, statusUpdateOk := true }

/-- The used resource as the pass persists it. -/
def c2UsedAfter : Object :=
  { c2Used with labels := setLabel c2Used.labels inUseLabelKey "true" }

/-- C2: at this input the guard fires (no label, no owner), and the claim
says the pass persists both the in-use label and the Usage as a
non-controlling owner of the used resource.  The code's write sets only
the label: the persisted object's owner set is still empty and does not
include the Usage UID, even though the pass completes successfully — the
guard `!used.OwnedBy(u.GetUID())` is checked but never established, so
the condition re-fires on every subsequent pass. -/
theorem C2_owner_reference_never_added :
    (Reconcile c2Env c2Usage).trace =
      [Effect.event EventType.normal "ResolveSelectors",
       Effect.addFinalizer,
       Effect.updateUsed c2UsedAfter,
       Effect.event EventType.normal "UsageConfigured",
       Effect.statusUpdate] ∧
    (Reconcile c2Env c2Usage).error = none ∧
    getLabel c2UsedAfter.labels inUseLabelKey = "true" ∧
    c2UsedAfter.ownerReferences = [] ∧
    ownedBy c2UsedAfter c2Usage.uid = false := by
  decide

/-! ## Claim C6 -/

/-- The inserted reference is always a member of
`addOwnerReference rs r`. -/
theorem mem_addOwnerReference_self (rs : List OwnerReference)
    (r : OwnerReference) : r ∈ addOwnerReference rs r := by
  induction rs with
  | nil => simp [addOwnerReference]
  | cons x xs ih =>
    by_cases h : x.uid = r.uid
    · simp [addOwnerReference, h]
    · simp [addOwnerReference, h, ih]

/-- `addOwnerReference` never shrinks the owner list. -/
theorem length_le_addOwnerReference (rs : List OwnerReference)
    (r : OwnerReference) : rs.length ≤ (addOwnerReference rs r).length := by
  induction rs with
  | nil => simp [addOwnerReference]
  | cons x xs ih =>
    by_cases h : x.uid = r.uid
    · simp [addOwnerReference, h]
    · simpa [addOwnerReference, h] using ih

/-- A pre-existing owner reference of the Usage, pointing at a foreign
object. -/
def c6Foreign : OwnerReference :=
  { apiVersion := "example.org/v1", kind := "C", name := "c", uid := "uid-x",
    controller := none }

/-- A non-deleted Usage of `A/a` held by `B/b`, already carrying one
foreign owner reference. -/
def c6Usage : Usage :=
  { uid := "u-6", labels := [], ownerReferences := [c6Foreign], deleted := false,
    spec := { of := { apiVersion := "example.org/v1", kind := "A", name := "a" },
              by_ := some { apiVersion := "example.org/v1", kind := "B", name := "b" } } }

/-- The used resource, already labelled and owned by the Usage, so the
label step is a no-op. -/
def c6Used : Object :=
  { apiVersion := "example.org/v1", kind := "A", name := "a", uid := "uid-a",
    labels := [("crossplane.io/in-use", "true")],
    ownerReferences := [{ apiVersion := "apiextensions.crossplane.io/v1alpha1",
                          kind := "Usage", name := "usage1", uid := "u-6",
                          controller := none }] }

/-- The using resource `B/b`. -/
def c6Using : Object :=
  { apiVersion := "example.org/v1", kind := "B", name := "b", uid := "uid-using",
    labels := [], ownerReferences := [] }

/-- Environment where every store call succeeds. -/
def c6Env : Env :=
  { resolveOk := true, getUsing := GetOutcome.ok c6Using,
    getUsed := GetOutcome.ok c6Used, listUsages := ListOutcome.ok [],
    addFinalizerOk := true, updateUsedOk := true, updateUsageOk := true,
    removeFinalizerOk := true, statusUpdateOk := true }

/-- The Usage as the pass persists it. -/
def c6UsageAfter : Usage :=
  { c6Usage with
    ownerReferences := addOwnerReference c6Usage.ownerReferences (asOwner c6Using) }

/-- C6 counterexample: the claim says the pass overwrites the owner
references to the single-element list `[AsOwner(using)]`.  At this input
the persisted Usage instead keeps the pre-existing foreign reference and
appends `AsOwner(using)`: two references, not the claimed singleton, and
the first owner's UID is still foreign, so the guard
`owners[0].UID != using.GetUID()` re-fires on the next pass. -/
theorem C6_counterexample_owner_refs_appended :
    Effect.updateUsage c6UsageAfter ∈ (Reconcile c6Env c6Usage).trace ∧
    c6UsageAfter.ownerReferences ≠ [asOwner c6Using] ∧
    c6UsageAfter.ownerReferences.length = 2 ∧
    ownerGuard c6UsageAfter c6Using = true := by
  decide

/-- C6 amended: when the using resource's UID is not the UID of the first
owner reference, the pass persists the Usage with
`meta.AddOwnerReference(u, AsOwner(using))` — replacing an existing
reference with the same UID, otherwise appending — so that afterwards
some owner reference (the non-controlling `AsOwner(using)`) carries the
using resource's UID, and no pre-existing reference is removed; the owner
list is not overwritten to a singleton. -/
theorem C6_amended_owner_ref_added (env : Env) (u : Usage) (b : Resource)
    (used usingObj : Object)
    (hres : env.resolveOk = true) (hdel : u.deleted = false)
    (hfin : env.addFinalizerOk = true)
    (hget : env.getUsed = GetOutcome.ok used)
    (hupd : env.updateUsedOk = true)
    (hby : u.spec.by_ = some b)
    (hgetu : env.getUsing = GetOutcome.ok usingObj)
    (hog : ownerGuard u usingObj = true)
    (hupdu : env.updateUsageOk = true) :
    Effect.updateUsage
        { u with ownerReferences := addOwnerReference u.ownerReferences (asOwner usingObj) }
      ∈ (Reconcile env u).trace ∧
    asOwner usingObj ∈ addOwnerReference u.ownerReferences (asOwner usingObj) ∧
    (asOwner usingObj).uid = usingObj.uid ∧
    (asOwner usingObj).controller = none ∧
    u.ownerReferences.length ≤
      (addOwnerReference u.ownerReferences (asOwner usingObj)).length := by
  refine ⟨?_, mem_addOwnerReference_self _ _, rfl, rfl,
    length_le_addOwnerReference _ _⟩
  rw [reconcile_steady env u hres hdel]
  unfold steadyPath
  simp only [hfin, Bool.not_true, Bool.false_eq_true, if_false, hget]
  by_cases hl : (getLabel used.labels inUseLabelKey != "true" || !ownedBy used u.uid) = true
  · simp only [hl, if_true, hupd]
    unfold ownerStep statusStep
    simp [hby, hgetu, hog, hupdu]
  · simp only [Bool.not_eq_true] at hl
    simp only [hl, Bool.false_eq_true, if_false]
    unfold ownerStep statusStep
    simp [hby, hgetu, hog, hupdu]

/-- C6 amended, at a concrete input: the persisted Usage carries the
appended `AsOwner(using)` reference. -/
theorem C6_amended_owner_ref_added_witness :
    Effect.updateUsage c6UsageAfter ∈ (Reconcile c6Env c6Usage).trace :=
  (C6_amended_owner_ref_added c6Env c6Usage
    { apiVersion := "example.org/v1", kind := "B", name := "b" } c6Used c6Using
    rfl rfl rfl rfl rfl rfl rfl (by decide) rfl).1

end Crossplane
